import Mathlib

/-!
Shallow embedding of the BudgetFlow processing pipeline, translated from the
Python sources of the repository.  Each section names the source file and the
functions it embeds; the theorems at the end settle the specification claims.
-/

/-! ## Hash registry — src/src/utils/hash_registry.py

The sqlite table processed_files has columns (customer_id, file_hash,
file_name, processed_at, status) with UNIQUE(customer_id, file_hash).
We model the table as a list of rows in insertion order; the timestamp
column plays no role in any claim and is omitted.
-/

structure FileRow where
  customer_id : String
  file_hash : String
  file_name : String
  status : String
deriving DecidableEq

/-- Embeds the COUNT query of HashRegistry.is_processed (lines 63-69):
SELECT COUNT of the rows whose customer_id and file_hash equal the
arguments. -/
def countRows (reg : List FileRow) (customer_id file_hash : String) : Nat :=
  reg.countP (fun r => r.customer_id == customer_id && r.file_hash == file_hash)

/-- Embeds HashRegistry.is_processed (lines 61-70): return count > 0.
Note the query does not restrict the status column. -/
def is_processed (reg : List FileRow) (customer_id file_hash : String) : Bool :=
  decide (0 < countRows reg customer_id file_hash)

/-- Embeds HashRegistry.mark_processed (lines 72-98): a status outside
success and error raises ValueError before touching the database; an INSERT
violating UNIQUE(customer_id, file_hash) raises sqlite3.IntegrityError,
which is caught and only logged, leaving the table unchanged; otherwise the
row is appended. -/
def mark_processed (reg : List FileRow) (customer_id file_hash file_name status : String) :
    Except String (List FileRow) :=
  if status ≠ "success" ∧ status ≠ "error" then
    Except.error "ValueError: Invalid status"
  else if reg.any (fun r => r.customer_id == customer_id && r.file_hash == file_hash) then
    Except.ok reg
  else
    Except.ok (reg ++ [⟨customer_id, file_hash, file_name, status⟩])

/-- Result of mark_processed when the caller ignores the outcome, as the
pipeline does for the valid statuses success and error: on a raise the
registry is left unchanged. -/
def markOr (reg : List FileRow) (customer_id file_hash file_name status : String) :
    List FileRow :=
  match mark_processed reg customer_id file_hash file_name status with
  | Except.ok reg2 => reg2
  | Except.error _ => reg

theorem is_processed_iff (reg : List FileRow) (c h : String) :
    is_processed reg c h = true ↔
      ∃ r ∈ reg, r.customer_id = c ∧ r.file_hash = h := by
  simp [is_processed, countRows, List.countP_pos_iff]

/-! ## Aggregator — src/llm/aggregator.py and src/src/llm/aggregator.py

Both revisions implement the same semantics: aggregate raises a
ValidationError on an empty batch, infers a single month for the whole
batch as the most common month among the transaction dates (Counter and
most_common, which on a tie keeps the first-encountered month, since
Python dictionaries preserve insertion order and the sort is stable), and
sums amounts into one bucket per category.  Transaction and AggregatedData
are from src/llm/models.py; Decimal amounts are modelled as rationals,
which share exact decimal arithmetic on the values involved.
-/

structure PyDate where
  year : Nat
  month : Nat
  day : Nat
deriving DecidableEq

structure Transaction where
  date : PyDate
  description : String
  amount : ℚ
  category : String
deriving DecidableEq

structure AggregatedData where
  customer_id : String
  month : Nat
  totals : List (String × ℚ)
  transactions : List Transaction
deriving DecidableEq

/-- Distinct keys of a Python dict built by insertion, in first-occurrence
order: models the key order of Counter and of defaultdict. -/
def firstOccurAux {α : Type} [DecidableEq α] (seen : List α) : List α → List α
  | [] => []
  | x :: xs =>
    if x ∈ seen then firstOccurAux seen xs
    else x :: firstOccurAux (x :: seen) xs

def firstOccur {α : Type} [DecidableEq α] (l : List α) : List α :=
  firstOccurAux [] l

/-- Number of occurrences of a month among the transaction dates: the count
stored by Counter(txn.date.month for txn in transactions). -/
def monthCount (ts : List Transaction) (m : Nat) : Nat :=
  ts.countP (fun t => t.date.month == m)

/-- Embeds Counter(...).most_common(1)[0][0] over the transaction months:
the month with the highest count; on a tie the first-encountered month
wins, because most_common sorts the insertion-ordered counter stably. -/
def mostCommonMonth (ts : List Transaction) : Nat :=
  match firstOccur (ts.map (fun t => t.date.month)) with
  | [] => 0
  | k :: ks =>
    (ks.foldl
      (fun best k2 =>
        if best.2 < monthCount ts k2 then (k2, monthCount ts k2) else best)
      (k, monthCount ts k)).1

/-- Embeds Aggregator._infer_month (src/llm/aggregator.py lines 53-72). -/
def _infer_month (ts : List Transaction) : Except String Nat :=
  if ts.isEmpty then
    Except.error "ValidationError: Cannot infer month from empty transaction list"
  else
    Except.ok (mostCommonMonth ts)

/-- Embeds the per-category totals loop of Aggregator.aggregate (lines
35-37 in both revisions): a defaultdict keyed by category, in
first-occurrence order, each key summing the amounts of the transactions
carrying that category. -/
def totalsFor (ts : List Transaction) : List (String × ℚ) :=
  (firstOccur (ts.map (fun t => t.category))).map
    (fun c => (c, ((ts.filter (fun t => t.category == c)).map
        (fun t => t.amount)).sum))

/-- Embeds Aggregator.aggregate (src/llm/aggregator.py lines 17-51;
src/src/llm/aggregator.py lines 16-49 inlines the same month inference). -/
def aggregate (ts : List Transaction) (customer_id : String) :
    Except String AggregatedData :=
  if ts.isEmpty then
    Except.error "ValidationError: Cannot aggregate empty transaction list"
  else
    match _infer_month ts with
    | Except.error e => Except.error e
    | Except.ok m =>
        Except.ok ⟨customer_id, m, totalsFor ts, ts⟩

/-! ## Retry wrappers — src/src/utils/retry.py and src/utils/retry.py

Both wrappers are decorators around a function call.  We model the wrapped
function as a map from the attempt index to the outcome of that call, and
each wrapper as a function returning the final outcome together with the
number of times the wrapped function was invoked.  Sleeping and logging
are omitted.  The loops are embedded structurally on the number of
remaining attempts, which in the source is max_retries minus the current
attempt index.
-/

/-- Exception classes relevant to src/src/utils/retry.py: an HttpError with
its response status, the other members of RETRYABLE_ERRORS (connection,
timeout, socket, ssl, OSError), and everything else. -/
inductive GExc where
  | http (status : Nat)
  | net
  | other
deriving DecidableEq

/-- Membership in the RETRYABLE_ERRORS tuple (lines 13-20). -/
def gRetryable : GExc → Bool
  | GExc.http _ => true
  | GExc.net => true
  | GExc.other => false

/-- The client-error test of line 38: a caught HttpError whose status is
below 500 and is not 429 is re-raised at once. -/
def gClientFatal : GExc → Bool
  | GExc.http s => decide (s < 500) && decide (s ≠ 429)
  | GExc.net => false
  | GExc.other => false

/-- Embeds the attempt loop of retry_with_backoff in
src/src/utils/retry.py (lines 26-55), for attempt in range(max_retries+1):
a success returns; an uncaught (non-retryable) exception propagates; a
caught HttpError that is a non-429 client error is re-raised; at the last
attempt (remaining = 0) the loop breaks and re-raises the last exception;
otherwise the loop continues with the next attempt. -/
def retryGoG {α : Type} (f : Nat → Except GExc α) (attempt : Nat) :
    Nat → Except GExc α × Nat
  | 0 =>
    -- last attempt: a success returns and every error path re-raises the
    -- exception of this call (uncaught, client-fatal, or break then raise)
    (f attempt, attempt + 1)
  | Nat.succ r =>
    match f attempt with
    | Except.ok a => (Except.ok a, attempt + 1)
    | Except.error e =>
      if gRetryable e = false then (Except.error e, attempt + 1)
      else if gClientFatal e then (Except.error e, attempt + 1)
      else retryGoG f (attempt + 1) r

/-- Embeds retry_with_backoff of src/src/utils/retry.py (lines 22-57),
returning the outcome and the number of invocations of the wrapped
function. -/
def retry_with_backoff (max_retries : Nat) {α : Type}
    (f : Nat → Except GExc α) : Except GExc α × Nat :=
  retryGoG f 0 max_retries

/-- Exception classes relevant to src/utils/retry.py, whose default
retryable set is the single class RetryableError. -/
inductive LExc where
  | retryable
  | nonRetryable
deriving DecidableEq

def lRetryable : LExc → Bool
  | LExc.retryable => true
  | LExc.nonRetryable => false

/-- Embeds the attempt loop of retry_with_backoff in src/utils/retry.py
(lines 26-43), for attempt in range(max_retries): when the loop is
exhausted without returning (remaining = 0, reachable only for
max_retries = 0) the function is called once more outside the loop (line
43) with nothing caught; inside the loop a success returns, a
non-retryable exception propagates, and a retryable exception is
re-raised when attempt = max_retries - 1 (remaining = 1). -/
def retryGoL {α : Type} (f : Nat → Except LExc α) (attempt : Nat) :
    Nat → Except LExc α × Nat
  | 0 => (f attempt, attempt + 1)
  | Nat.succ r =>
    match f attempt with
    | Except.ok a => (Except.ok a, attempt + 1)
    | Except.error e =>
      if lRetryable e = false then (Except.error e, attempt + 1)
      else
        match r with
        | 0 => (Except.error e, attempt + 1)
        | Nat.succ r2 => retryGoL f (attempt + 1) (Nat.succ r2)

/-- Embeds retry_with_backoff of src/utils/retry.py (lines 11-46). -/
def retry_with_backoff_legacy (max_retries : Nat) {α : Type}
    (f : Nat → Except LExc α) : Except LExc α × Nat :=
  retryGoL f 0 max_retries

/-! ## Document pipeline — src/orchestrator/processor.py and
src/src/orchestrator/processor.py with src/src/gemini/processor.py

We model one invocation of the per-document pipeline over an abstract
environment: the registry rows, the identifiers of the document, and the
list of transactions the extraction collaborator would return.  Download
and hashing are abstracted into the given file_hash.  The outcome records
the folder moves, the publishes, whether extraction was invoked, the value
returned (none when the call raised), and the registry afterwards.
-/

structure PipeOutcome where
  movedToArchive : Bool
  movedToError : Bool
  movedToDuplicates : Bool
  budgetPublished : Bool
  rawPublished : Bool
  extractionCalled : Bool
  returned : Option (List Transaction)
  registry : List FileRow
deriving DecidableEq

/-- Embeds ProcessingOrchestrator.process_pdf of src/orchestrator/processor.py
(lines 190-279): download and hash; if is_processed, move to Duplicates
and return the empty list; extract; an empty extraction raises PDFError,
caught below: move to Error, mark the hash with status error, re-raise;
otherwise aggregate, update the budget sheet, append raw data, move to
Archive, mark with status success, and return the transactions. -/
def process_pdf (reg : List FileRow) (customer_id file_name file_hash : String)
    (extracted : List Transaction) : PipeOutcome :=
  if is_processed reg customer_id file_hash then
    { movedToArchive := false, movedToError := false, movedToDuplicates := true,
      budgetPublished := false, rawPublished := false, extractionCalled := false,
      returned := some [], registry := reg }
  else if extracted.isEmpty then
    { movedToArchive := false, movedToError := true, movedToDuplicates := false,
      budgetPublished := false, rawPublished := false, extractionCalled := true,
      returned := none,
      registry := markOr reg customer_id file_hash file_name "error" }
  else
    { movedToArchive := true, movedToError := false, movedToDuplicates := false,
      budgetPublished := true, rawPublished := true, extractionCalled := true,
      returned := some extracted,
      registry := markOr reg customer_id file_hash file_name "success" }

/-- Embeds GeminiProcessor.process_pdf of src/src/gemini/processor.py
(lines 52-117): the same dedup check and empty-extraction raise (lines
67-79); on the success path it publishes the budget and raw data, moves
the file to Archive, and then calls mark_processed with a FileRecord — a
name the hash_registry module never defines, so the call raises and the
except clause (lines 114-117), which catches only PDFError, LLMError,
SheetsError and NetworkError, does not stop it: the invocation raises
after archiving, writing no registry row.  The retry decorator around it
does not retry a PDFError, which is not in RETRYABLE_ERRORS, so the
wrapped call is invoked once. -/
def gemini_process_pdf (reg : List FileRow)
    (customer_id file_name file_hash : String)
    (extracted : List Transaction) : PipeOutcome :=
  if is_processed reg customer_id file_hash then
    { movedToArchive := false, movedToError := false, movedToDuplicates := true,
      budgetPublished := false, rawPublished := false, extractionCalled := false,
      returned := some [], registry := reg }
  else if extracted.isEmpty then
    { movedToArchive := false, movedToError := false, movedToDuplicates := false,
      budgetPublished := false, rawPublished := false, extractionCalled := true,
      returned := none, registry := reg }
  else
    { movedToArchive := true, movedToError := false, movedToDuplicates := false,
      budgetPublished := true, rawPublished := true, extractionCalled := true,
      returned := none, registry := reg }

/-- Embeds ProcessingOrchestrator._process_single_file of
src/src/orchestrator/processor.py (lines 165-217): its own download, hash
and dedup check (move to Duplicates and return ([], True)); then
delegation to GeminiProcessor.process_pdf.  When that call raises, the
except clause moves the file to Error and then calls mark_processed with
status FAILED, which mark_processed rejects with ValueError before any
write, so the invocation itself raises.  When it returns, the file is
archived again and mark_processed is called with status SUCCESS, also
rejected with ValueError, landing in the same except clause.  The model
returns the pair of transactions and success flag only on the paths that
return normally. -/
def _process_single_file (reg : List FileRow)
    (customer_id file_name file_hash : String)
    (extracted : List Transaction) : PipeOutcome :=
  if is_processed reg customer_id file_hash then
    { movedToArchive := false, movedToError := false, movedToDuplicates := true,
      budgetPublished := false, rawPublished := false, extractionCalled := false,
      returned := some [], registry := reg }
  else
    let g := gemini_process_pdf reg customer_id file_name file_hash extracted
    match g.returned with
    | none =>
      { movedToArchive := g.movedToArchive, movedToError := true,
        movedToDuplicates := g.movedToDuplicates,
        budgetPublished := g.budgetPublished, rawPublished := g.rawPublished,
        extractionCalled := g.extractionCalled, returned := none,
        registry := g.registry }
    | some _ =>
      { movedToArchive := true, movedToError := true,
        movedToDuplicates := g.movedToDuplicates,
        budgetPublished := g.budgetPublished, rawPublished := g.rawPublished,
        extractionCalled := g.extractionCalled, returned := none,
        registry := g.registry }

/-! ## Orchestrator polling cycle — src/src/orchestrator/processor.py
(run_polling_cycle, lines 49-74) and src/orchestrator/processor.py
(run_polling_cycle, lines 74-114)

A cycle is modelled over an abstract set of discovered customers and an
abstract per-customer task, the task outcome being either a result or an
uncaught exception.  The thread pool collects completed futures in a
nondeterministic order; the model collects them in submission order, which
the claims do not distinguish.
-/

structure PResult where
  customer_id : String
  files_processed : Nat
  files_failed : Nat
  transactions_extracted : Nat
deriving DecidableEq

/-- Embeds the merge-cleaned run_polling_cycle (src/src/orchestrator/
processor.py lines 49-74): a discovery failure returns the empty list; a
task raising an exception contributes ProcessingResult(customer.id,
files_failed=1); a task returning contributes its result. -/
def run_polling_cycle (discovered : Except Unit (List String))
    (task : String → Except Unit PResult) : List PResult :=
  match discovered with
  | Except.error _ => []
  | Except.ok customers =>
    customers.map (fun c =>
      match task c with
      | Except.ok r => r
      | Except.error _ =>
        { customer_id := c, files_processed := 0, files_failed := 1,
          transactions_extracted := 0 })

/-- Embeds the legacy run_polling_cycle (src/orchestrator/processor.py
lines 74-114): no customers yields the empty list (subsumed below); a
task raising an exception is logged and contributes no entry to the
results; a task returning contributes its result. -/
def run_polling_cycle_legacy (discovered : List String)
    (task : String → Except Unit PResult) : List PResult :=
  discovered.filterMap (fun c => (task c).toOption)

/-! ## Supporting lemmas -/

theorem mem_firstOccurAux {α : Type} [DecidableEq α] :
    ∀ (l seen : List α) (x : α),
      x ∈ firstOccurAux seen l ↔ (x ∈ l ∧ x ∉ seen) := by
  intro l
  induction l with
  | nil => intro seen x; simp [firstOccurAux]
  | cons y ys ih =>
    intro seen x
    by_cases hy : y ∈ seen
    · simp only [firstOccurAux, if_pos hy, ih, List.mem_cons]
      constructor
      · rintro ⟨hx, hns⟩; exact ⟨Or.inr hx, hns⟩
      · rintro ⟨hx | hx, hns⟩
        · subst hx; exact absurd hy hns
        · exact ⟨hx, hns⟩
    · simp only [firstOccurAux, if_neg hy, List.mem_cons, ih]
      by_cases hxy : x = y
      · subst hxy; simp [hy]
      · simp [hxy, List.mem_cons]

theorem mem_firstOccur {α : Type} [DecidableEq α] (l : List α) (x : α) :
    x ∈ firstOccur l ↔ x ∈ l := by
  simp [firstOccur, mem_firstOccurAux]

theorem nodup_firstOccurAux {α : Type} [DecidableEq α] :
    ∀ (l seen : List α), (firstOccurAux seen l).Nodup := by
  intro l
  induction l with
  | nil => intro seen; simp [firstOccurAux]
  | cons y ys ih =>
    intro seen
    by_cases hy : y ∈ seen
    · simpa [firstOccurAux, if_pos hy] using ih seen
    · rw [firstOccurAux, if_neg hy]
      refine List.nodup_cons.mpr ⟨?_, ih (y :: seen)⟩
      intro hmem
      exact ((mem_firstOccurAux ys (y :: seen) y).mp hmem).2 (List.mem_cons_self y seen)

theorem nodup_firstOccur {α : Type} [DecidableEq α] (l : List α) :
    (firstOccur l).Nodup :=
  nodup_firstOccurAux l []

theorem sum_filter_split (ts : List Transaction) (p : Transaction → Bool) :
    ((ts.filter p).map (fun t => t.amount)).sum
      + ((ts.filter (fun t => !(p t))).map (fun t => t.amount)).sum
      = (ts.map (fun t => t.amount)).sum := by
  induction ts with
  | nil => simp
  | cons t ts ih =>
    by_cases h : p t
    · simp only [List.filter_cons, h, Bool.not_true, if_pos, List.map_cons,
        List.sum_cons]
      simp only [h, Bool.not_true, Bool.false_eq_true, if_false]
      rw [add_assoc, ih]
    · simp only [List.filter_cons]
      have hb : p t = false := by simpa using h
      simp only [hb, Bool.not_false, Bool.false_eq_true, if_false, if_pos,
        List.map_cons, List.sum_cons]
      rw [← ih]; ring

theorem filter_category_of_ne (ts : List Transaction) (c k : String)
    (hck : k ≠ c) :
    (ts.filter (fun t => !(t.category == c))).filter (fun t => t.category == k)
      = ts.filter (fun t => t.category == k) := by
  induction ts with
  | nil => simp
  | cons t ts ih =>
    by_cases hk : t.category = k
    · have hc : ¬ t.category = c := by rw [hk]; exact hck
      simp [List.filter_cons, hk, hc, hck, ih]
    · by_cases hc : t.category = c
      · simp [List.filter_cons, hk, hc, hck, Ne.symm hck, ih]
      · simp [List.filter_cons, hk, hc, ih]

theorem bucket_sum :
    ∀ (keys : List String) (ts : List Transaction), keys.Nodup →
      (∀ t ∈ ts, t.category ∈ keys) →
      (keys.map (fun c =>
        ((ts.filter (fun t => t.category == c)).map
          (fun t => t.amount)).sum)).sum
        = (ts.map (fun t => t.amount)).sum := by
  intro keys
  induction keys with
  | nil =>
    intro ts _ hcov
    have hts : ts = [] := by
      cases ts with
      | nil => rfl
      | cons t ts => exact absurd (hcov t (List.mem_cons_self t ts)) (by simp)
    subst hts; simp
  | cons c ks ih =>
    intro ts hnd hcov
    have hnotc : c ∉ ks := (List.nodup_cons.mp hnd).1
    have hndks : ks.Nodup := (List.nodup_cons.mp hnd).2
    set ts2 := ts.filter (fun t => !(t.category == c)) with hts2
    have hstep : ∀ k ∈ ks,
        ((ts.filter (fun t => t.category == k)).map (fun t => t.amount)).sum
          = ((ts2.filter (fun t => t.category == k)).map
              (fun t => t.amount)).sum := by
      intro k hk
      have hkc : k ≠ c := fun h => hnotc (h ▸ hk)
      rw [hts2, filter_category_of_ne ts c k hkc]
    have hcov2 : ∀ t ∈ ts2, t.category ∈ ks := by
      intro t ht
      have hmem : t ∈ ts := List.mem_of_mem_filter ht
      have hne : ¬ (t.category == c) = true := by
        have := List.of_mem_filter ht
        simpa using this
      have := hcov t hmem
      rcases List.mem_cons.mp this with h | h
      · exact absurd (by simpa using h) hne
      · exact h
    calc (List.map (fun c =>
            ((ts.filter (fun t => t.category == c)).map
              (fun t => t.amount)).sum) (c :: ks)).sum
        = ((ts.filter (fun t => t.category == c)).map
            (fun t => t.amount)).sum
          + (ks.map (fun k =>
              ((ts.filter (fun t => t.category == k)).map
                (fun t => t.amount)).sum)).sum := by simp
      _ = ((ts.filter (fun t => t.category == c)).map
            (fun t => t.amount)).sum
          + (ks.map (fun k =>
              ((ts2.filter (fun t => t.category == k)).map
                (fun t => t.amount)).sum)).sum := by
            rw [List.map_congr_left hstep]
      _ = ((ts.filter (fun t => t.category == c)).map
            (fun t => t.amount)).sum
          + (ts2.map (fun t => t.amount)).sum := by
            rw [ih ts2 hndks hcov2]
      _ = (ts.map (fun t => t.amount)).sum := by
            rw [hts2]
            exact sum_filter_split ts (fun t => t.category == c)

theorem retryGoG_transient {α : Type} (f : Nat → Except GExc α)
    (es : Nat → GExc) :
    ∀ (r attempt : Nat),
      (∀ i, attempt ≤ i → i ≤ attempt + r →
        f i = Except.error (es i) ∧ gRetryable (es i) = true ∧
        gClientFatal (es i) = false) →
      retryGoG f attempt r
        = (Except.error (es (attempt + r)), attempt + r + 1) := by
  intro r
  induction r with
  | zero =>
    intro attempt h
    have h0 := h attempt (Nat.le_refl _) (Nat.le_refl _)
    simp [retryGoG, h0.1]
  | succ r ih =>
    intro attempt h
    have h0 := h attempt (Nat.le_refl _) (Nat.le_add_right _ _)
    have hrec := ih (attempt + 1) (by
      intro i h1 h2
      exact h i (Nat.le_of_succ_le h1) (by omega))
    rw [retryGoG, h0.1]
    simp only [h0.2.1, h0.2.2, Bool.true_eq_false, if_false, Bool.false_eq_true]
    rw [hrec]
    have : attempt + 1 + r = attempt + (r + 1) := by omega
    rw [this]

theorem mark_ok_key_mem (reg reg2 : List FileRow) (c h n s : String)
    (hm : mark_processed reg c h n s = Except.ok reg2) :
    ∃ r ∈ reg2, r.customer_id = c ∧ r.file_hash = h := by
  rw [mark_processed] at hm
  by_cases hval : (s ≠ "success" ∧ s ≠ "error")
  · rw [if_pos hval] at hm; exact absurd hm (by simp)
  · rw [if_neg hval] at hm
    by_cases hany :
        reg.any (fun r => r.customer_id == c && r.file_hash == h) = true
    · rw [if_pos hany] at hm
      injection hm with hh; subst hh
      obtain ⟨r, hr, hb⟩ := List.any_eq_true.mp hany
      refine ⟨r, hr, ?_⟩
      simpa using hb
    · rw [if_neg hany] at hm
      injection hm with hh; subst hh
      exact ⟨⟨c, h, n, s⟩, by simp, rfl, rfl⟩

theorem retryGoL_transient {α : Type} (f : Nat → Except LExc α)
    (es : Nat → LExc) :
    ∀ (r attempt : Nat),
      (∀ i, attempt ≤ i → i ≤ attempt + r →
        f i = Except.error (es i) ∧ lRetryable (es i) = true) →
      retryGoL f attempt (Nat.succ r)
        = (Except.error (es (attempt + r)), attempt + r + 1) := by
  intro r
  induction r with
  | zero =>
    intro attempt h
    have h0 := h attempt (Nat.le_refl _) (Nat.le_refl _)
    simp [retryGoL, h0.1, h0.2]
  | succ r ih =>
    intro attempt h
    have h0 := h attempt (Nat.le_refl _) (Nat.le_add_right _ _)
    have hrec := ih (attempt + 1) (by
      intro i h1 h2
      exact h i (Nat.le_of_succ_le h1) (by omega))
    rw [retryGoL, h0.1]
    simp only [h0.2, Bool.true_eq_false, if_false, Bool.false_eq_true]
    rw [hrec]
    have : attempt + 1 + r = attempt + (r + 1) := by omega
    rw [this]

/-! ## Claims -/

/-- Claim C1: the specification requires every LineItem to land in the
(category, month) bucket of its own date.  The code instead computes one
majority month for the whole batch and one bucket per category: on a batch
of three Food items, two dated May and one dated June, aggregate returns a
single month 5 and a single bucket Food with the sum of all three amounts,
so the June item is not assigned to a month-6 bucket. -/
theorem aggregate_majority_month_eval :
    aggregate
      [⟨⟨2025, 5, 1⟩, "store a", -100, "Food"⟩,
       ⟨⟨2025, 5, 2⟩, "store b", -20, "Food"⟩,
       ⟨⟨2025, 6, 3⟩, "store c", -50, "Food"⟩] "acme"
      = Except.ok ⟨"acme", 5,
          [("Food", -170)],
          [⟨⟨2025, 5, 1⟩, "store a", -100, "Food"⟩,
           ⟨⟨2025, 5, 2⟩, "store b", -20, "Food"⟩,
           ⟨⟨2025, 6, 3⟩, "store c", -50, "Food"⟩]⟩ := by
  simp only [aggregate, _infer_month, mostCommonMonth, firstOccur,
    firstOccurAux, monthCount, totalsFor, List.isEmpty, List.map,
    List.filter, List.countP, List.countP.go, List.foldl, List.sum_cons,
    List.sum_nil]
  norm_num
  decide

/-- Claim C2 counterexample: marking a key with outcome error (the failed
outcome) makes is_processed true for that key even though no success
record exists, so a failed attempt does block retry. -/
theorem is_processed_true_after_error_mark :
    mark_processed [] "custX" "hash1" "doc.pdf" "error"
        = Except.ok [⟨"custX", "hash1", "doc.pdf", "error"⟩]
      ∧ is_processed [⟨"custX", "hash1", "doc.pdf", "error"⟩] "custX" "hash1"
        = true
      ∧ ("error" : String) ≠ "success" :=
  ⟨rfl, rfl, by decide⟩

/-- Claim C2 amended: is_processed(customer_id, hash) is true iff a record
with ANY outcome exists for that exact key; in particular a mark with
outcome error makes it true, so a failed attempt also suppresses
reprocessing. -/
theorem is_processed_any_record :
    (∀ (reg : List FileRow) (c h : String),
      is_processed reg c h = true ↔
        ∃ r ∈ reg, r.customer_id = c ∧ r.file_hash = h)
    ∧ (∀ (reg reg2 : List FileRow) (c h n : String),
      mark_processed reg c h n "error" = Except.ok reg2 →
      is_processed reg2 c h = true) := by
  refine ⟨is_processed_iff, ?_⟩
  intro reg reg2 c h n hm
  obtain ⟨r, hr, hrc, hrh⟩ := mark_ok_key_mem reg reg2 c h n "error" hm
  exact (is_processed_iff reg2 c h).mpr ⟨r, hr, hrc, hrh⟩

theorem is_processed_any_record_witness :
    is_processed [⟨"custA", "h2", "f.pdf", "error"⟩] "custA" "h2" = true :=
  is_processed_any_record.2 [] [⟨"custA", "h2", "f.pdf", "error"⟩]
    "custA" "h2" "f.pdf" (by rfl)

/-- Claim C3 counterexample: marking the same key a second time with the
valid status success leaves the record of the first mark (status error)
untouched, so the record does not hold the values of the second mark. -/
theorem mark_processed_second_mark_ignored :
    mark_processed [⟨"custX", "h1", "a.pdf", "error"⟩]
        "custX" "h1" "a.pdf" "success"
      = Except.ok [⟨"custX", "h1", "a.pdf", "error"⟩]
      ∧ ("error" : String) ≠ "success" :=
  ⟨rfl, by decide⟩

/-- Claim C3 amended: when the same (customer_id, hash) key is marked twice
with valid statuses the second call never raises, but the duplicate insert
is ignored and the registry is unchanged: first write wins, so a
failed-then-succeeded retry leaves the key recorded with the first
outcome. -/
theorem mark_processed_first_write_wins :
    ∀ (reg reg1 : List FileRow) (c h n1 s1 n2 s2 : String),
      (s1 = "success" ∨ s1 = "error") → (s2 = "success" ∨ s2 = "error") →
      mark_processed reg c h n1 s1 = Except.ok reg1 →
      mark_processed reg1 c h n2 s2 = Except.ok reg1 := by
  intro reg reg1 c h n1 s1 n2 s2 _hs1 hs2 hm1
  obtain ⟨r, hr, hrc, hrh⟩ := mark_ok_key_mem reg reg1 c h n1 s1 hm1
  have hval : ¬(s2 ≠ "success" ∧ s2 ≠ "error") := by
    rcases hs2 with h2 | h2 <;> subst h2 <;> simp
  have hany : reg1.any (fun r => r.customer_id == c && r.file_hash == h)
      = true :=
    List.any_eq_true.mpr ⟨r, hr, by simp [hrc, hrh]⟩
  rw [mark_processed, if_neg hval, if_pos hany]

theorem mark_processed_first_write_wins_witness :
    mark_processed [⟨"custB", "h3", "b.pdf", "error"⟩]
        "custB" "h3" "b.pdf" "success"
      = Except.ok [⟨"custB", "h3", "b.pdf", "error"⟩] :=
  mark_processed_first_write_wins [] [⟨"custB", "h3", "b.pdf", "error"⟩]
    "custB" "h3" "b.pdf" "error" "b.pdf" "success"
    (Or.inr rfl) (Or.inl rfl) (by rfl)

/-- Claim C8: writing a ledger record for customer x never changes what
is_processed answers for a different customer y on the same hash. -/
theorem mark_preserves_other_customer :
    ∀ (reg reg2 : List FileRow) (x y h n s : String), y ≠ x →
      mark_processed reg x h n s = Except.ok reg2 →
      is_processed reg2 y h = is_processed reg y h := by
  intro reg reg2 x y h n s hyx hm
  rw [mark_processed] at hm
  by_cases hval : (s ≠ "success" ∧ s ≠ "error")
  · rw [if_pos hval] at hm; exact absurd hm (by simp)
  · rw [if_neg hval] at hm
    by_cases hany :
        reg.any (fun r => r.customer_id == x && r.file_hash == h) = true
    · rw [if_pos hany] at hm; injection hm with hh; subst hh; rfl
    · rw [if_neg hany] at hm; injection hm with hh; subst hh
      have hc : countRows (reg ++ [⟨x, h, n, s⟩]) y h = countRows reg y h := by
        simp [countRows, List.countP_append, Ne.symm hyx]
      rw [is_processed, is_processed, hc]

theorem mark_preserves_other_customer_witness :
    is_processed [⟨"custA", "h9", "c.pdf", "success"⟩] "custB" "h9"
      = is_processed [] "custB" "h9" :=
  mark_preserves_other_customer [] [⟨"custA", "h9", "c.pdf", "success"⟩]
    "custA" "custB" "h9" "c.pdf" "success" (by decide) (by rfl)

/-- Claim C10: for every status string other than success and error,
mark_processed raises ValueError at the validation step, before any
database write, so no registry row is produced. -/
theorem mark_processed_invalid_status :
    ∀ (reg : List FileRow) (c h n s : String),
      s ≠ "success" → s ≠ "error" →
      mark_processed reg c h n s
        = Except.error "ValueError: Invalid status" := by
  intro reg c h n s h1 h2
  rw [mark_processed, if_pos ⟨h1, h2⟩]

theorem mark_processed_invalid_status_witness :
    mark_processed [] "custA" "h1" "f.pdf" "SUCCESS"
      = Except.error "ValueError: Invalid status" :=
  mark_processed_invalid_status [] "custA" "h1" "f.pdf" "SUCCESS"
    (by decide) (by decide)

/-- Claim C7: aggregation conserves amounts — whenever aggregate succeeds,
the sum of all bucket values of the result equals the sum of the amounts
of all input items. -/
theorem aggregate_conserves_sum :
    ∀ (ts : List Transaction) (cid : String) (agg : AggregatedData),
      aggregate ts cid = Except.ok agg →
      (agg.totals.map Prod.snd).sum = (ts.map (fun t => t.amount)).sum := by
  intro ts cid agg hagg
  by_cases he : ts.isEmpty
  · rw [aggregate, if_pos he] at hagg
    exact absurd hagg (by simp)
  · rw [aggregate, if_neg he, _infer_month, if_neg he] at hagg
    injection hagg with hh
    subst hh
    show ((totalsFor ts).map Prod.snd).sum = (ts.map (fun t => t.amount)).sum
    rw [totalsFor, List.map_map]
    have hrw : (Prod.snd ∘ fun c =>
        (c, ((ts.filter (fun t => t.category == c)).map
          (fun t => t.amount)).sum))
        = fun c => ((ts.filter (fun t => t.category == c)).map
          (fun t => t.amount)).sum := rfl
    rw [hrw]
    apply bucket_sum
    · exact nodup_firstOccur _
    · intro t ht
      exact (mem_firstOccur _ _).mpr (List.mem_map_of_mem _ ht)

def tsC7 : List Transaction :=
  [⟨⟨2025, 5, 1⟩, "rent", -100, "Food"⟩,
   ⟨⟨2025, 6, 2⟩, "gas", -50, "Fuel"⟩]

def aggC7 : AggregatedData :=
  ⟨"acme", 5, [("Food", -100), ("Fuel", -50)], tsC7⟩

theorem aggregate_conserves_sum_witness :
    ((aggC7.totals.map Prod.snd).sum = (tsC7.map (fun t => t.amount)).sum) :=
  aggregate_conserves_sum tsC7 "acme" aggC7 (by
    simp only [tsC7, aggC7, aggregate, _infer_month, mostCommonMonth,
      firstOccur, firstOccurAux, monthCount, totalsFor, List.isEmpty,
      List.map, List.filter, List.countP, List.countP.go, List.foldl,
      List.sum_cons, List.sum_nil]
    norm_num
    decide)

/-- Claim C4 counterexample: under the legacy wrapper of
src/utils/retry.py with max_retries = 3, a function that always raises a
retryable error is invoked exactly 3 times before the error is re-raised,
not max_retries + 1 = 4 times. -/
theorem retry_legacy_attempt_count :
    retry_with_backoff_legacy 3
        (fun _ => (Except.error LExc.retryable : Except LExc Unit))
      = (Except.error LExc.retryable, 3)
      ∧ (3 : Nat) ≠ 3 + 1 :=
  ⟨rfl, by decide⟩

/-- Claim C4 amended: the wrapper of src/src/utils/retry.py invokes an
always-transiently-failing function exactly max_retries + 1 times and
re-raises the last error, re-raises a non-retryable error after exactly
one invocation, and re-raises a non-429 4xx HttpError after exactly one
invocation; the legacy wrapper of src/utils/retry.py invokes an
always-transiently-failing function exactly max_retries times (for
max_retries at least 1) before re-raising the last error, and re-raises a
non-retryable error after exactly one invocation. -/
theorem retry_attempt_counts :
    (∀ (m : Nat) (f : Nat → Except GExc Unit) (es : Nat → GExc),
      (∀ i, i ≤ m → f i = Except.error (es i) ∧ gRetryable (es i) = true ∧
        gClientFatal (es i) = false) →
      retry_with_backoff m f = (Except.error (es m), m + 1))
    ∧ (∀ (m : Nat) (f : Nat → Except GExc Unit) (e : GExc),
      f 0 = Except.error e → gRetryable e = false →
      retry_with_backoff m f = (Except.error e, 1))
    ∧ (∀ (m : Nat) (f : Nat → Except GExc Unit) (s : Nat),
      f 0 = Except.error (GExc.http s) → s < 500 → s ≠ 429 →
      retry_with_backoff m f = (Except.error (GExc.http s), 1))
    ∧ (∀ (r : Nat) (f : Nat → Except LExc Unit) (es : Nat → LExc),
      (∀ i, i ≤ r → f i = Except.error (es i) ∧ lRetryable (es i) = true) →
      retry_with_backoff_legacy (Nat.succ r) f = (Except.error (es r), r + 1))
    ∧ (∀ (m : Nat) (f : Nat → Except LExc Unit) (e : LExc),
      f 0 = Except.error e → lRetryable e = false →
      retry_with_backoff_legacy m f = (Except.error e, 1)) := by
  refine ⟨?_, ?_, ?_, ?_, ?_⟩
  · intro m f es h
    have := retryGoG_transient f es m 0 (by
      intro i h1 h2
      exact h i (by omega))
    simpa [retry_with_backoff] using this
  · intro m f e hf hret
    cases m with
    | zero => rw [retry_with_backoff, retryGoG, hf]
    | succ r =>
      rw [retry_with_backoff, retryGoG, hf]
      simp [hret]
  · intro m f s hf h500 h429
    have hcf : gClientFatal (GExc.http s) = true := by
      simp [gClientFatal, h500, h429]
    cases m with
    | zero => rw [retry_with_backoff, retryGoG, hf]
    | succ r =>
      rw [retry_with_backoff, retryGoG, hf]
      simp [gRetryable, hcf]
  · intro r f es h
    have := retryGoL_transient f es r 0 (by
      intro i h1 h2
      exact h i (by omega))
    simpa [retry_with_backoff_legacy] using this
  · intro m f e hf hret
    cases m with
    | zero => rw [retry_with_backoff_legacy, retryGoL, hf]
    | succ r =>
      rw [retry_with_backoff_legacy, retryGoL, hf]
      simp [hret]

theorem retry_attempt_counts_witness :
    retry_with_backoff 2
        (fun _ => (Except.error GExc.net : Except GExc Unit))
      = (Except.error GExc.net, 3)
    ∧ retry_with_backoff 5
        (fun _ => (Except.error GExc.other : Except GExc Unit))
      = (Except.error GExc.other, 1)
    ∧ retry_with_backoff 5
        (fun _ => (Except.error (GExc.http 404) : Except GExc Unit))
      = (Except.error (GExc.http 404), 1)
    ∧ retry_with_backoff_legacy 2
        (fun _ => (Except.error LExc.retryable : Except LExc Unit))
      = (Except.error LExc.retryable, 2)
    ∧ retry_with_backoff_legacy 5
        (fun _ => (Except.error LExc.nonRetryable : Except LExc Unit))
      = (Except.error LExc.nonRetryable, 1) :=
  ⟨retry_attempt_counts.1 2 _ (fun _ => GExc.net)
      (fun _ _ => ⟨rfl, rfl, rfl⟩),
   retry_attempt_counts.2.1 5 _ GExc.other rfl rfl,
   retry_attempt_counts.2.2.1 5 _ 404 rfl (by decide) (by decide),
   retry_attempt_counts.2.2.2.1 1 _ (fun _ => LExc.retryable)
      (fun _ _ => ⟨rfl, rfl⟩),
   retry_attempt_counts.2.2.2.2 5 _ LExc.nonRetryable rfl rfl⟩

/-- Claim C5: when a success record already exists for (customer, hash),
both pipeline revisions move the file to the Duplicates folder (never to
Archive), return zero line items, invoke no extraction, publish no
aggregate and no raw data, and write no second ledger record. -/
theorem duplicate_content_noop :
    ∀ (reg : List FileRow) (cid name h : String)
      (extracted : List Transaction) (r : FileRow),
      r ∈ reg → r.customer_id = cid → r.file_hash = h →
      r.status = "success" →
      process_pdf reg cid name h extracted
          = { movedToArchive := false, movedToError := false,
              movedToDuplicates := true, budgetPublished := false,
              rawPublished := false, extractionCalled := false,
              returned := some [], registry := reg }
        ∧ _process_single_file reg cid name h extracted
          = { movedToArchive := false, movedToError := false,
              movedToDuplicates := true, budgetPublished := false,
              rawPublished := false, extractionCalled := false,
              returned := some [], registry := reg } := by
  intro reg cid name h ext r hr hc hh _hs
  have hip : is_processed reg cid h = true :=
    (is_processed_iff reg cid h).mpr ⟨r, hr, hc, hh⟩
  constructor
  · rw [process_pdf, if_pos hip]
  · rw [_process_single_file, if_pos hip]

theorem duplicate_content_noop_witness :
    process_pdf [⟨"custD", "h7", "d.pdf", "success"⟩] "custD" "d.pdf" "h7" []
        = { movedToArchive := false, movedToError := false,
            movedToDuplicates := true, budgetPublished := false,
            rawPublished := false, extractionCalled := false,
            returned := some [],
            registry := [⟨"custD", "h7", "d.pdf", "success"⟩] }
      ∧ _process_single_file [⟨"custD", "h7", "d.pdf", "success"⟩]
          "custD" "d.pdf" "h7" []
        = { movedToArchive := false, movedToError := false,
            movedToDuplicates := true, budgetPublished := false,
            rawPublished := false, extractionCalled := false,
            returned := some [],
            registry := [⟨"custD", "h7", "d.pdf", "success"⟩] } :=
  duplicate_content_noop [⟨"custD", "h7", "d.pdf", "success"⟩]
    "custD" "d.pdf" "h7" [] ⟨"custD", "h7", "d.pdf", "success"⟩
    (by simp) rfl rfl rfl

/-- Claim C6: when extraction returns an empty list for a non-duplicate
document, both pipeline revisions raise, move the file to the Error
folder and never to Archive, and publish neither aggregate nor raw data
for that document. -/
theorem empty_extraction_error_path :
    ∀ (reg : List FileRow) (cid name h : String),
      is_processed reg cid h = false →
      ((process_pdf reg cid name h []).movedToError = true
        ∧ (process_pdf reg cid name h []).movedToArchive = false
        ∧ (process_pdf reg cid name h []).budgetPublished = false
        ∧ (process_pdf reg cid name h []).rawPublished = false
        ∧ (process_pdf reg cid name h []).returned = none)
      ∧ ((_process_single_file reg cid name h []).movedToError = true
        ∧ (_process_single_file reg cid name h []).movedToArchive = false
        ∧ (_process_single_file reg cid name h []).budgetPublished = false
        ∧ (_process_single_file reg cid name h []).rawPublished = false
        ∧ (_process_single_file reg cid name h []).returned = none) := by
  intro reg cid name h hip
  constructor
  · simp [process_pdf, hip]
  · simp [_process_single_file, gemini_process_pdf, hip]

theorem empty_extraction_error_path_witness :
    ((process_pdf [] "custE" "e.pdf" "h8" []).movedToError = true
      ∧ (process_pdf [] "custE" "e.pdf" "h8" []).movedToArchive = false
      ∧ (process_pdf [] "custE" "e.pdf" "h8" []).budgetPublished = false
      ∧ (process_pdf [] "custE" "e.pdf" "h8" []).rawPublished = false
      ∧ (process_pdf [] "custE" "e.pdf" "h8" []).returned = none)
    ∧ ((_process_single_file [] "custE" "e.pdf" "h8" []).movedToError = true
      ∧ (_process_single_file [] "custE" "e.pdf" "h8" []).movedToArchive
        = false
      ∧ (_process_single_file [] "custE" "e.pdf" "h8" []).budgetPublished
        = false
      ∧ (_process_single_file [] "custE" "e.pdf" "h8" []).rawPublished
        = false
      ∧ (_process_single_file [] "custE" "e.pdf" "h8" []).returned = none) :=
  empty_extraction_error_path [] "custE" "e.pdf" "h8" (by rfl)

/-- Task used in the orchestrator scenarios: the customer acme raises an
unexpected exception and every other customer returns a normal result. -/
def taskC9 : String → Except Unit PResult :=
  fun c =>
    if c = "acme" then Except.error ()
    else Except.ok ⟨c, 1, 0, 2⟩

/-- Claim C9 counterexample: in the legacy polling cycle a customer whose
task raises contributes no result entry at all — the cycle over acme
(raising) and globex (succeeding) returns only the globex entry, so the
failed customer does not contribute a failed-count result. -/
theorem legacy_cycle_drops_failed_customer :
    run_polling_cycle_legacy ["acme", "globex"] taskC9
      = [⟨"globex", 1, 0, 2⟩] := by
  rfl

/-- Claim C9 amended: the cycle always completes; in the merge-cleaned
orchestrator a customer whose task raises contributes a result entry with
files_failed = 1 and the other customers contribute their results
unaffected; in the legacy orchestrator the exception is caught and logged
but the failed customer contributes no result entry, every collected entry
coming from a task that returned normally. -/
theorem polling_cycle_failure_handling :
    ∀ (cs : List String) (task : String → Except Unit PResult) (c : String),
      c ∈ cs → task c = Except.error () →
      ((⟨c, 0, 1, 0⟩ : PResult) ∈ run_polling_cycle (Except.ok cs) task)
      ∧ (∀ (c2 : String) (r2 : PResult), c2 ∈ cs → task c2 = Except.ok r2 →
          r2 ∈ run_polling_cycle (Except.ok cs) task
          ∧ r2 ∈ run_polling_cycle_legacy cs task)
      ∧ (∀ r ∈ run_polling_cycle_legacy cs task,
          ∃ c2, c2 ∈ cs ∧ task c2 = Except.ok r) := by
  intro cs task c hc htask
  refine ⟨?_, ?_, ?_⟩
  · rw [run_polling_cycle]
    apply List.mem_map.mpr
    exact ⟨c, hc, by rw [htask]⟩
  · intro c2 r2 hc2 htask2
    constructor
    · rw [run_polling_cycle]
      apply List.mem_map.mpr
      exact ⟨c2, hc2, by rw [htask2]⟩
    · rw [run_polling_cycle_legacy]
      apply List.mem_filterMap.mpr
      exact ⟨c2, hc2, by rw [htask2]; rfl⟩
  · intro r hr
    rw [run_polling_cycle_legacy] at hr
    obtain ⟨c2, hc2, hopt⟩ := List.mem_filterMap.mp hr
    refine ⟨c2, hc2, ?_⟩
    cases hE : task c2 with
    | error u => rw [hE] at hopt; exact absurd hopt (by simp [Except.toOption])
    | ok r2 =>
      rw [hE] at hopt
      have hr2 : r2 = r := by simpa [Except.toOption] using hopt
      rw [hr2]

theorem polling_cycle_failure_handling_witness :
    ((⟨"acme", 0, 1, 0⟩ : PResult)
        ∈ run_polling_cycle (Except.ok ["acme", "globex"]) taskC9)
    ∧ ((⟨"globex", 1, 0, 2⟩ : PResult)
        ∈ run_polling_cycle (Except.ok ["acme", "globex"]) taskC9
      ∧ (⟨"globex", 1, 0, 2⟩ : PResult)
        ∈ run_polling_cycle_legacy ["acme", "globex"] taskC9) := by
  have h := polling_cycle_failure_handling ["acme", "globex"] taskC9
    "acme" (by simp) (by rfl)
  exact ⟨h.1, h.2.1 "globex" ⟨"globex", 1, 0, 2⟩ (by simp) (by rfl)⟩
